import Mathlib

/-!
Verification of the candid authorization/identity core against its source:
`internal/v1/auth.go` (the operation resolver `opForRequest`) and
`idp/usso/ussooauth/ussooauth.go` (the Ubuntu SSO OAuth identity provider).

Go functions are shallowly embedded as pure Lean functions; the outbound
HTTP exchange with the remote validator is passed in as an explicit
response value, and the list of POSTed payloads is returned alongside the
result so that I/O counts are visible in the embedding.
-/

deriving instance DecidableEq for Except

namespace Candid

/-! ## internal/v1/auth.go -/

namespace V1

/-- Modelled from the spec: the closed set of action kinds of the
`internal/auth` package (not under src/): Read, WriteAdmin, WriteGroups,
ReadGroups, CreateAgent, ReadSSHKeys, WriteSSHKeys, ReadAdmin, Verify,
DischargeFor, Login; `noAccess` stands for the empty action of the zero
`bakery.Op` value. -/
inductive ActionKind where
  | read
  | writeAdmin
  | writeGroups
  | readGroups
  | createAgent
  | readSSHKeys
  | writeSSHKeys
  | readAdmin
  | verify
  | dischargeFor
  | login
  | noAccess
deriving DecidableEq, Repr

/-- Modelled from the spec: an Operation pairs an entity string with an action kind
(`bakery.Op`, an external type). -/
structure Op where
  entity : String
  action : ActionKind
deriving DecidableEq, Repr

/-- Modelled from the spec: `auth.UserOp` (package `internal/auth`, not under
src/) builds the operation scoped to a specific user identifier, as in the
spec example of Entity `"alice"` with Action `CreateAgent`. -/
def UserOp (username : String) (action : ActionKind) : Op :=
  ⟨username, action⟩

/-- Modelled from the spec: `auth.GlobalOp` (package `internal/auth`, not
under src/) builds the operation with the "global" resource scope. -/
def GlobalOp (action : ActionKind) : Op :=
  ⟨"global", action⟩

/-- Modelled from the spec: `identchecker.LoginOp`, the distinguished Login
operation, which asserts only that the caller is authenticated. -/
def LoginOp : Op :=
  ⟨"login", ActionKind.login⟩

/-- Modelled from the spec: the zero `bakery.Op` value, the no-access
Operation with empty entity and empty action. -/
def zeroOp : Op :=
  ⟨"", ActionKind.noAccess⟩

/-- The request-descriptor variants of `opForRequest`'s type switch, each
carrying the fields the switch reads (`Username`, and for `SetUserRequest`
also `Owner`); `unknown` stands for any argument value that is none of the
known `params.*Request` types, carrying its printed description. -/
inductive Request where
  | queryUsers
  | user (username : String)
  | setUser (username owner : String)
  | userGroups (username : String)
  | setUserGroups (username : String)
  | modifyUserGroups (username : String)
  | userIDPGroups (username : String)
  | whoAmI
  | sshKeys (username : String)
  | putSSHKeys (username : String)
  | deleteSSHKeys (username : String)
  | userToken (username : String)
  | verifyToken
  | userExtraInfo (username : String)
  | setUserExtraInfo (username : String)
  | userExtraInfoItem (username : String)
  | setUserExtraInfoItem (username : String)
  | dischargeTokenForUser
  | unknown (descr : String)
deriving DecidableEq, Repr

/-- Embedding of `opForRequest` (auth.go lines 15-60).  The first component
is the returned `bakery.Op`; the second is the list of diagnostic log lines
emitted (the `default` branch logs `logger.Infof("unknown API argument type %#v", r)`
and then falls through to return the zero `bakery.Op`). -/
def opForRequest : Request → Op × List String
  | .queryUsers => (GlobalOp .read, [])
  | .user u => (UserOp u .read, [])
  | .setUser u o =>
    if o ≠ "" then (UserOp o .createAgent, [])
    else (UserOp u .writeAdmin, [])
  | .userGroups u => (UserOp u .readGroups, [])
  | .setUserGroups u => (UserOp u .writeGroups, [])
  | .modifyUserGroups u => (UserOp u .writeGroups, [])
  | .userIDPGroups u => (UserOp u .readGroups, [])
  | .whoAmI => (LoginOp, [])
  | .sshKeys u => (UserOp u .readSSHKeys, [])
  | .putSSHKeys u => (UserOp u .writeSSHKeys, [])
  | .deleteSSHKeys u => (UserOp u .writeSSHKeys, [])
  | .userToken u => (UserOp u .readAdmin, [])
  | .verifyToken => (GlobalOp .verify, [])
  | .userExtraInfo u => (UserOp u .readAdmin, [])
  | .setUserExtraInfo u => (UserOp u .writeAdmin, [])
  | .userExtraInfoItem u => (UserOp u .readAdmin, [])
  | .setUserExtraInfoItem u => (UserOp u .writeAdmin, [])
  | .dischargeTokenForUser => (GlobalOp .dischargeFor, [])
  | .unknown d => (zeroOp, ["unknown API argument type " ++ d])

end V1

/-! ## idp/usso/ussooauth/ussooauth.go -/

namespace Ussooauth

/-- The fixed Ubuntu SSO base URL (`ussoURL` constant). -/
def ussoURL : String := "https://login.ubuntu.com"

/-- The parsed `net/url.URL` that `url.Parse` returns on success, restricted
to the parts `verifyOAuthSignature` touches after it mutates only
`RawQuery`.  `base` is the prefix of `URL.String()`'s output before the
query part, that is `scheme://authority` plus the escaped path exactly as
`Parse`/`String` normalise them (scheme lowercased, path re-escaped);
`forceQuery` mirrors `URL.ForceQuery`; `rawQuery` is `URL.RawQuery`;
`fragment` is the escaped fragment, `""` when absent. -/
structure GoURL where
  base : String
  forceQuery : Bool
  rawQuery : String
  fragment : String
deriving DecidableEq, Repr

/-- Model of `net/url.URL.String` on a parsed `GoURL`: the pre-query prefix,
then `?` and the raw query when `ForceQuery` is set or the raw query is
non-empty, then `#` and the fragment when the fragment is non-empty. -/
def urlString (u : GoURL) : String :=
  u.base ++ (if u.forceQuery || u.rawQuery != "" then "?" ++ u.rawQuery else "")
         ++ (if u.fragment = "" then "" else "#" ++ u.fragment)

/-- UTF-8 encoding of a single character as byte values, used because Go's
`url.QueryEscape` escapes individual bytes of the UTF-8 encoding. -/
def utf8Bytes (c : Char) : List Nat :=
  let n := c.toNat
  if n < 0x80 then [n]
  else if n < 0x800 then [0xC0 + n / 64, 0x80 + n % 64]
  else if n < 0x10000 then [0xE0 + n / 4096, 0x80 + (n / 64) % 64, 0x80 + n % 64]
  else [0xF0 + n / 262144, 0x80 + (n / 4096) % 64, 0x80 + (n / 64) % 64, 0x80 + n % 64]

/-- Uppercase hexadecimal digit for a value below 16. -/
def hexDigit (n : Nat) : Char :=
  if n < 10 then Char.ofNat (48 + n) else Char.ofNat (55 + n)

/-- Model of `net/url.QueryEscape` applied to one byte: bytes that are
alphanumeric or one of `-_.~` are kept, a space byte becomes `+`, every
other byte becomes `%XX` with uppercase hexadecimal digits. -/
def queryEscapeByte (b : Nat) : List Char :=
  let c := Char.ofNat b
  if c.isAlphanum || c = '-' || c = '_' || c = '.' || c = '~' then [c]
  else if c = ' ' then ['+']
  else ['%', hexDigit (b / 16), hexDigit (b % 16)]

/-- Model of `net/url.QueryEscape` on a string: escape each byte of its
UTF-8 encoding. -/
def queryEscape (s : String) : String :=
  ⟨(s.data.flatMap utf8Bytes).flatMap queryEscapeByte⟩

/-- Lexicographic order on character lists by code point, which for UTF-8
encoded strings agrees with the bytewise order `sort.Strings` uses. -/
def charListLe : List Char → List Char → Bool
  | [], _ => true
  | _ :: _, [] => false
  | a :: as, b :: bs =>
    if a = b then charListLe as bs else decide (a.toNat < b.toNat)

/-- Stable insertion of a keyed entry into a key-sorted list, for the key
sort performed by `url.Values.Encode`. -/
def insertByKey (e : String × List String) :
    List (String × List String) → List (String × List String)
  | [] => [e]
  | x :: xs =>
    if charListLe e.1.data x.1.data then e :: x :: xs else x :: insertByKey e xs

/-- Key sort (insertion sort) used to model the sorted iteration of
`url.Values.Encode` over its map keys. -/
def sortByKey : List (String × List String) → List (String × List String)
  | [] => []
  | x :: xs => insertByKey x (sortByKey xs)

/-- Model of `url.Values.Encode` (Go): keys in sorted order, each value of a
key in order, each pair rendered `escape(k)=escape(v)`, joined with `&`. -/
def valuesEncode (form : List (String × List String)) : String :=
  String.intercalate "&"
    ((sortByKey form).flatMap fun kv =>
      kv.2.map fun v => queryEscape kv.1 ++ "=" ++ queryEscape v)

/-- The whitespace class of Go's `unicode.IsSpace` (the Unicode
`White_Space` property), used by `strings.TrimSpace` and
`strings.TrimLeftFunc(…, unicode.IsSpace)` in `mime/mediatype.go`. -/
def goIsSpace (c : Char) : Bool :=
  let n := c.toNat
  (0x09 ≤ n && n ≤ 0x0D) || n = 0x20 || n = 0x85 || n = 0xA0 ||
  n = 0x1680 || (0x2000 ≤ n && n ≤ 0x200A) || n = 0x2028 || n = 0x2029 ||
  n = 0x202F || n = 0x205F || n = 0x3000

/-- The tspecials of Go's `mime` package (`isTSpecial`). -/
def isTSpecialCh (c : Char) : Bool :=
  "()<>@,;:\\\"/[]?=".data.contains c

/-- Character class of Go's `mime.isTokenChar`: printable ASCII other than
space and the tspecials. -/
def isTokenCh (c : Char) : Bool :=
  0x20 < c.toNat && c.toNat < 0x7F && !isTSpecialCh c

/-- Whitespace trim on both ends of a character list, modelling
`strings.TrimSpace`. -/
def trimChars (l : List Char) : List Char :=
  ((l.dropWhile goIsSpace).reverse.dropWhile goIsSpace).reverse

/-- Validity of the shape checked by `mime`'s
`checkMediaTypeDisposition`: a non-empty token, optionally followed by `/`
and a second non-empty token with nothing after it (the distinct messages
of its error returns are not tracked: only nil-ness of the error reaches
`verifyOAuthSignature`). -/
def mediaTypeShapeOk (l : List Char) : Bool :=
  let t := l.takeWhile isTokenCh
  let rest := l.drop t.length
  if t.isEmpty then false
  else
    match rest with
    | [] => true
    | '/' :: sub => !sub.isEmpty && sub.all isTokenCh
    | _ => false

/-- The quoted-string loop of `mime`'s `consumeValue`: a closing `"` ends
the value; a `\` followed by a tspecial contributes the escaped character;
a bare CR or LF, or a missing closing quote, is a failure (`none`). -/
def consumeValueQuoted : List Char → List Char → Option (List Char × List Char)
  | _, [] => none
  | acc, '"' :: rest => some (acc.reverse, rest)
  | acc, '\\' :: d :: rest =>
    if isTSpecialCh d then consumeValueQuoted (d :: acc) rest
    else consumeValueQuoted ('\\' :: acc) (d :: rest)
  | _, '\r' :: _ => none
  | _, '\n' :: _ => none
  | acc, c :: rest => consumeValueQuoted (c :: acc) rest

/-- Model of `mime`'s `consumeValue`: a quoted string, or a bare token;
`none` is Go's failure return of an empty value with the input unconsumed. -/
def consumeValue (v : List Char) : Option (List Char × List Char) :=
  match v with
  | '"' :: rest => consumeValueQuoted [] rest
  | _ =>
    let t := v.takeWhile isTokenCh
    if t.isEmpty then none else some (t, v.drop t.length)

/-- Model of `mime`'s `consumeMediaParam`: optional space, `;`, optional
space, a non-empty attribute token (lowercased), optional space, `=`,
optional space, a value; `none` is Go's empty-key failure return. -/
def consumeMediaParam (v : List Char) :
    Option (List Char × List Char × List Char) :=
  match v.dropWhile goIsSpace with
  | ';' :: r1 =>
    let r2 := r1.dropWhile goIsSpace
    let param := r2.takeWhile isTokenCh
    if param.isEmpty then none
    else
      match (r2.drop param.length).dropWhile goIsSpace with
      | '=' :: r4 =>
        match consumeValue (r4.dropWhile goIsSpace) with
        | none => none
        | some (val, r6) => some (param.map Char.toLower, val, r6)
      | _ => none
  | _ => none

/-- The parameter loop of `mime.ParseMediaType`, tracking only what decides
the error: the parameters seen so far and the continuation maps for keys
containing `*` (`strings.Cut(key, "*")` groups them by base name), so that
a parameter failure that is not a trailing `;`, or a duplicate name with a
different value, yields `false`.  Each successful step consumes at least
the `;`, so the fuel `v.length + 1` it is called with never runs out. -/
def paramsLoopOk : Nat → List (String × String) →
    List (String × List (String × String)) → List Char → Bool
  | 0, _, _, _ => false
  | Nat.succ fuel, params, continuation, v =>
    let v := v.dropWhile goIsSpace
    if v.isEmpty then true
    else
      match consumeMediaParam v with
      | none => trimChars v = [';']
      | some (key, value, rest) =>
        let keyS : String := ⟨key⟩
        let valS : String := ⟨value⟩
        if key.contains '*' then
          let baseName : String := ⟨key.takeWhile (fun c => c ≠ '*')⟩
          let cmap := (continuation.lookup baseName).getD []
          match cmap.lookup keyS with
          | some old =>
            if old ≠ valS then false
            else paramsLoopOk fuel params continuation rest
          | none =>
            paramsLoopOk fuel params
              ((baseName, (keyS, valS) :: cmap) ::
                continuation.filter (fun p => p.1 ≠ baseName)) rest
        else
          match params.lookup keyS with
          | some old =>
            if old ≠ valS then false
            else paramsLoopOk fuel params continuation rest
          | none => paramsLoopOk fuel ((keyS, valS) :: params) continuation rest

/-- Model of `mime.ParseMediaType` restricted to the outputs
`verifyOAuthSignature` consumes (the media type and the nil-ness of the
error): the part before the first `;` is lowercased and trimmed and must
have a valid token shape, and the parameter section after it must parse
with no duplicate parameter name carrying a different value (the RFC 2231
continuation merge that follows in Go cannot fail and only affects the
discarded parameter map). -/
def parseMediaType (v : String) : Except String String :=
  let before := v.data.takeWhile (fun c => c ≠ ';')
  let after := v.data.dropWhile (fun c => c ≠ ';')
  let mediatype := trimChars (before.map Char.toLower)
  if mediaTypeShapeOk mediatype then
    if paramsLoopOk (after.length + 1) [] [] after then Except.ok ⟨mediatype⟩
    else Except.error "mime: invalid media parameter"
  else Except.error "mime: no media type"

/-- The literal part of `consumerKeyRegexp`, the characters of
`oauth_consumer_key="`. -/
def ckPat : List Char := "oauth_consumer_key=\"".data

/-- Attempted match of `consumerKeyRegexp` anchored at the head of `l`: the
literal `oauth_consumer_key="`, then the capture `[^"]*` (the maximal run of
non-quote characters), then a closing `"`. -/
def matchKeyAt (l : List Char) : Option (List Char) :=
  if ckPat.isPrefixOf l then
    let rest := l.drop ckPat.length
    let k := rest.takeWhile (fun c => c ≠ '"')
    match rest.drop k.length with
    | '"' :: _ => some k
    | _ => none
  else none

/-- Leftmost-match scan for `consumerKeyRegexp`: try each start position in
order, as the RE2 engine does for this pattern. -/
def findKeyAux : List Char → Option (List Char)
  | [] => none
  | c :: cs =>
    match matchKeyAt (c :: cs) with
    | some k => some k
    | none => findKeyAux cs

/-- Model of `consumerKeyRegexp.FindStringSubmatch`: `some k` with `k` the
capture group of the leftmost match (in which case the Go slice has length
exactly 2: whole match and group), `none` when there is no match (Go
returns nil, length 0). -/
def findConsumerKey (s : String) : Option String :=
  (findKeyAux s.data).map fun k => ⟨k⟩

/-- Number of non-overlapping matches of `consumerKeyRegexp` (the semantics
of `FindAllString`), used to state how many `oauth_consumer_key`
occurrences a header holds.  The first argument is the number of characters
still to skip past the end of the previous match: after a match whose
capture is `k`, the remaining `ckPat.length + k.length` characters of the
match are skipped before scanning resumes. -/
def countKeyAux : Nat → List Char → Nat
  | _, [] => 0
  | Nat.succ n, _ :: cs => countKeyAux n cs
  | 0, c :: cs =>
    match matchKeyAt (c :: cs) with
    | some k => 1 + countKeyAux (ckPat.length + k.length) cs
    | none => countKeyAux 0 cs

/-- String version of `countKeyAux`. -/
def countConsumerKeyMatches (s : String) : Nat :=
  countKeyAux 0 s.data

/-- Embedding of the empty struct type `identityProvider`: a stateless value. -/
inductive identityProvider where
  | mk
deriving DecidableEq, Repr

/-- The key under which `init` registers the provider:
`config.RegisterIDP("usso_oauth", ...)`. -/
def registeredIDPName : String := "usso_oauth"

/-- Embedding of `(*identityProvider).Name`. -/
def Name (_ : identityProvider) : String := "usso_oauth"

/-- Embedding of `(*identityProvider).Description`. -/
def Description (_ : identityProvider) : String := "Ubuntu SSO OAuth"

/-- Embedding of `(*identityProvider).Interactive`. -/
def Interactive (_ : identityProvider) : Bool := false

/-- Embedding of `(*identityProvider).URL`: the `idp.URLContext` collaborator
is abstracted as the function `cURL` (its `URL` method); the Go method
returns `(callback, nil)`, embedded as `Except.ok`. -/
def URL (_ : identityProvider) (cURL : String → String) (waitID : String) :
    Except String String :=
  let callback := cURL "/oauth"
  let callback := if waitID ≠ "" then callback ++ "?waitid=" ++ waitID else callback
  Except.ok callback

/-- The fields of the inbound `*http.Request` that `verifyOAuthSignature`
reads after `req.ParseForm()`: the method, the `Authorization` header, and
the parsed form (`req.Form`, a map from key to values, here an association
list). -/
structure HttpRequest where
  method : String
  authorization : String
  form : List (String × List String)
deriving DecidableEq, Repr

/-- The JSON body POSTed to the validator, with the four tagged fields of
the anonymous struct in `verifyOAuthSignature`. -/
structure ValidatePayload where
  http_url : String
  http_method : String
  authorization : String
  query_string : String
deriving DecidableEq, Repr

/-- Model of `json.Marshal` on the payload struct: a JSON object whose keys
appear in field order with the corresponding string values (marshalling a
struct of strings cannot fail). -/
def jsonMarshalPayload (p : ValidatePayload) : List (String × String) :=
  [("http_url", p.http_url), ("http_method", p.http_method),
   ("authorization", p.authorization), ("query_string", p.query_string)]

/-- The two fields `json.Unmarshal` fills from the validator's body. -/
structure Validated where
  is_valid : Bool
  error : String
deriving DecidableEq, Repr

/-- The validator's HTTP response as `verifyOAuthSignature` consumes it: the
`Content-Type` header value, and the outcome of reading and JSON-decoding
the body (`Except.error` when `json.Unmarshal` fails). -/
structure HttpResponse where
  contentType : String
  body : Except String Validated
deriving DecidableEq, Repr

/-- Embedding of `verifyOAuthSignature`.  The two stdlib boundaries it
crosses are explicit inputs, like the parsed form and the decoded body:
`parsedURL` is the outcome of `url.Parse(requestURL)` (`Except.error e`
when `Parse` fails, as it does on invalid percent-escapes or control
characters, with `e` its message; `Except.ok u` the parsed URL), and
`resp` is the result of `http.Post` (transport error or response).  The
first component of the result is the list of payloads POSTed: none when
`url.Parse` fails (Go returns `cannot parse request URL` before the POST,
ussooauth.go lines 86-89), otherwise exactly one (`json.Marshal` of a
string struct cannot fail); the second is the returned `(string, error)`,
embedded as `Except`. -/
def verifyOAuthSignature (parsedURL : Except String GoURL) (req : HttpRequest)
    (resp : Except String HttpResponse) :
    List (List (String × String)) × Except String String :=
  match parsedURL with
  | .error e => ([], .error ("cannot parse request URL: " ++ e))
  | .ok u0 =>
    let u := { u0 with rawQuery := "" }
    let payload : ValidatePayload :=
      { http_url := urlString u
        http_method := req.method
        authorization := req.authorization
        query_string := valuesEncode req.form }
    ([jsonMarshalPayload payload],
      match resp with
      | .error e => .error e
      | .ok resp =>
        match parseMediaType resp.contentType with
        | .error _ => .error ("bad content type \"" ++ resp.contentType ++ "\"")
        | .ok t =>
          if t ≠ "application/json" then
            .error ("unexpected response type \"" ++ t ++ "\"")
          else
            match resp.body with
            | .error e => .error e
            | .ok validated =>
              if validated.error ≠ "" then
                .error ("cannot validate OAuth credentials: " ++ validated.error)
              else if !validated.is_valid then
                .error "invalid OAuth credentials"
              else
                match findConsumerKey req.authorization with
                | none => .error "no customer key in authorization"
                | some k => .ok (ussoURL ++ "/+id/" ++ k))

/-- Modelled from the spec: the opaque local `User` resolved by the user
store collaborator. -/
structure User where
  username : String
deriving DecidableEq, Repr

/-- The terminal outcome of a login attempt: the login-completion sink of
the spec, exactly one of success (with the resolved user) or failure (with
a cause). -/
inductive LoginOutcome where
  | success (u : User)
  | failure (cause : String)
deriving DecidableEq, Repr

/-- Modelled from the spec: `idputil.LoginUser` (package `idp/idputil`, not
under src/) invokes the login-completion collaborator with the resolved
user. -/
def LoginUser (u : User) : LoginOutcome :=
  LoginOutcome.success u

/-- The `idp.Context` collaborator of `Handle`, restricted to what `Handle`
reads: the request URL (as the outcome of `url.Parse` on `c.RequestURL()`,
the form in which `verifyOAuthSignature` consumes it), the inbound request,
the validator interaction (explicit response value), and the user store
lookup `FindUserByExternalId`. -/
structure IdpContext where
  requestURL : Except String GoURL
  request : HttpRequest
  resp : Except String HttpResponse
  findUserByExternalId : String → Except String User

/-- Embedding of `(*identityProvider).Handle`: verify the OAuth signature;
on error report login failure; otherwise look up the user by external id;
on error report login failure with the wrapped cause; otherwise log the
user in. -/
def Handle (c : IdpContext) : LoginOutcome :=
  match (verifyOAuthSignature c.requestURL c.request c.resp).2 with
  | .error e => LoginOutcome.failure e
  | .ok id =>
    match c.findUserByExternalId id with
    | .error e =>
      LoginOutcome.failure ("cannot get user details for \"" ++ id ++ "\": " ++ e)
    | .ok u => LoginUser u

/-- Concrete inbound request used by witnesses: no consumer key anywhere. -/
def reqPlain : HttpRequest :=
  { method := "POST", authorization := "Basic abc", form := [] }

/-- Concrete inbound request used by witnesses: one consumer key `u123`. -/
def reqOne : HttpRequest :=
  { method := "GET"
    authorization := "OAuth oauth_consumer_key=\"u123\", oauth_token=\"t\""
    form := [("waitid", ["w1"])] }

/-- Concrete inbound request used by the C4 counterexample: two
`oauth_consumer_key` occurrences, first `a`, second `b`. -/
def reqTwo : HttpRequest :=
  { method := "GET"
    authorization := "OAuth oauth_consumer_key=\"a\", oauth_consumer_key=\"b\""
    form := [] }

/-- Concrete validator response accepting the signature. -/
def respValid : HttpResponse :=
  { contentType := "application/json", body := Except.ok { is_valid := true, error := "" } }

/-- The result of `url.Parse "https://e.com/oauth"` (a URL `Parse` accepts
and `String` reproduces verbatim: lowercase scheme, no escapes, no query,
no fragment). -/
def urlOAuth : GoURL :=
  { base := "https://e.com/oauth", forceQuery := false,
    rawQuery := "", fragment := "" }

/-- The result of `url.Parse "https://e.com/oauth?waitid=w1"` (as
`urlOAuth`, with the raw query `waitid=w1`). -/
def urlOAuthWait : GoURL :=
  { base := "https://e.com/oauth", forceQuery := false,
    rawQuery := "waitid=w1", fragment := "" }

/-- The error `url.Parse` returns for `https://e.com/%zz`, whose `%zz` is
an invalid percent-escape. -/
def parseErrZZ : String :=
  "parse \"https://e.com/%zz\": invalid URL escape \"%zz\""

/-- Concrete login context used by the C3 witness: parseable request URL,
valid response, one consumer key, and a user store that knows the
resulting external id. -/
def ctxOne : IdpContext :=
  { requestURL := Except.ok urlOAuthWait
    request := reqOne
    resp := Except.ok respValid
    findUserByExternalId := fun s =>
      if s = "https://login.ubuntu.com/+id/u123" then Except.ok ⟨"bob"⟩
      else Except.error "not found" }

end Ussooauth

end Candid

namespace Candid

namespace Ussooauth

theorem findKeyAux_eq_none_iff (l : List Char) :
    findKeyAux l = none ↔ countKeyAux 0 l = 0 := by
  induction l with
  | nil => simp [findKeyAux, countKeyAux]
  | cons x xs ih =>
    rcases h : matchKeyAt (x :: xs) with _ | k
    · rw [findKeyAux, countKeyAux, h]
      exact ih
    · rw [findKeyAux, countKeyAux, h]
      simp

end Ussooauth

/-- C1: `opForRequest` maps a `SetUserRequest` with non-empty `Owner` to the
`CreateAgent` operation on the owner, and with empty `Owner` to the
`WriteAdmin` operation on the username (auth.go lines 21-25). -/
theorem claim_C1_setUser_op (u o : String) :
    (o ≠ "" →
      (V1.opForRequest (V1.Request.setUser u o)).1 = ⟨o, V1.ActionKind.createAgent⟩) ∧
    (o = "" →
      (V1.opForRequest (V1.Request.setUser u o)).1 = ⟨u, V1.ActionKind.writeAdmin⟩) := by
  constructor
  · intro h
    simp [V1.opForRequest, V1.UserOp, h]
  · intro h
    simp [V1.opForRequest, V1.UserOp, h]

theorem claim_C1_setUser_op_witness :
    (V1.opForRequest (V1.Request.setUser "bob" "alice")).1 =
        ⟨"alice", V1.ActionKind.createAgent⟩ ∧
    (V1.opForRequest (V1.Request.setUser "bob" "")).1 =
        ⟨"bob", V1.ActionKind.writeAdmin⟩ :=
  ⟨(claim_C1_setUser_op "bob" "alice").1 (by decide),
   (claim_C1_setUser_op "bob" "").2 rfl⟩

/-- C2: `opForRequest` is a total Lean function (it returns an `Op` on every
input, never an error), and on any unknown argument value it returns the
zero no-access operation together with exactly one diagnostic log line
(auth.go lines 56-59). -/
theorem claim_C2_unknown_safe_default (d : String) :
    V1.opForRequest (V1.Request.unknown d) =
      (V1.zeroOp, ["unknown API argument type " ++ d]) :=
  rfl

/-- C8: `opForRequest` maps a `WhoAmIRequest` (which carries no fields) to
the distinguished Login operation, whose action is `login`, and no other
request variant resolves to a login-action operation (auth.go lines
34-35). -/
theorem claim_C8_whoAmI_login :
    (V1.opForRequest V1.Request.whoAmI).1 = V1.LoginOp ∧
    V1.LoginOp.action = V1.ActionKind.login ∧
    ∀ r : V1.Request, r ≠ V1.Request.whoAmI →
      (V1.opForRequest r).1.action ≠ V1.ActionKind.login := by
  refine ⟨rfl, rfl, ?_⟩
  intro r hr
  cases r <;>
    simp_all [V1.opForRequest, V1.UserOp, V1.GlobalOp, V1.LoginOp, V1.zeroOp]
  split <;> simp

theorem claim_C8_whoAmI_login_witness :
    (V1.opForRequest V1.Request.queryUsers).1.action ≠ V1.ActionKind.login :=
  claim_C8_whoAmI_login.2.2 V1.Request.queryUsers (by decide)

/-- C9: the provider's `URL` method returns `c.URL("/oauth")` with
`?waitid=<waitID>` appended exactly when `waitID` is non-empty, and never
returns an error (ussooauth.go lines 57-63). -/
theorem claim_C9_loginURL (p : Ussooauth.identityProvider)
    (cURL : String → String) (w : String) :
    (w ≠ "" →
      Ussooauth.URL p cURL w = Except.ok (cURL "/oauth" ++ "?waitid=" ++ w)) ∧
    (w = "" → Ussooauth.URL p cURL w = Except.ok (cURL "/oauth")) ∧
    (∀ e, Ussooauth.URL p cURL w ≠ Except.error e) := by
  refine ⟨?_, ?_, ?_⟩
  · intro h
    simp [Ussooauth.URL, h]
  · intro h
    simp [Ussooauth.URL, h]
  · intro e
    by_cases h : w = "" <;> simp [Ussooauth.URL, h]

theorem claim_C9_loginURL_witness :
    Ussooauth.URL Ussooauth.identityProvider.mk
        (fun s => "https://cb.example" ++ s) "w1" =
      Except.ok "https://cb.example/oauth?waitid=w1" :=
  (claim_C9_loginURL Ussooauth.identityProvider.mk
    (fun s => "https://cb.example" ++ s) "w1").1 (by decide)

/-- C10: the provider descriptor is constant and state-independent: `Name`
always returns `"usso_oauth"`, the same string under which `init` registers
the provider, `Description` always returns `"Ubuntu SSO OAuth"`, and
`Interactive` always returns `false` (ussooauth.go lines 23-27 and
42-54). -/
theorem claim_C10_descriptor (p : Ussooauth.identityProvider) :
    Ussooauth.Name p = "usso_oauth" ∧
    Ussooauth.Name p = Ussooauth.registeredIDPName ∧
    Ussooauth.Description p = "Ubuntu SSO OAuth" ∧
    Ussooauth.Interactive p = false :=
  ⟨rfl, rfl, rfl, rfl⟩

/-- C3: `Handle` terminates in exactly one outcome: some outcome is always
produced, success and failure are mutually exclusive, a verification error
is reported as that login failure, a user-lookup error is reported as a
login failure wrapping the cause, and when both verification and lookup
succeed the resolved user is logged in (ussooauth.go lines 66-78). -/
theorem claim_C3_handle_one_outcome (c : Ussooauth.IdpContext) :
    ((∃ u, Ussooauth.Handle c = Ussooauth.LoginOutcome.success u) ∨
      (∃ e, Ussooauth.Handle c = Ussooauth.LoginOutcome.failure e)) ∧
    (∀ u e, ¬(Ussooauth.Handle c = Ussooauth.LoginOutcome.success u ∧
      Ussooauth.Handle c = Ussooauth.LoginOutcome.failure e)) ∧
    (∀ e, (Ussooauth.verifyOAuthSignature c.requestURL c.request c.resp).2 =
        Except.error e →
      Ussooauth.Handle c = Ussooauth.LoginOutcome.failure e) ∧
    (∀ id e,
      (Ussooauth.verifyOAuthSignature c.requestURL c.request c.resp).2 =
        Except.ok id →
      c.findUserByExternalId id = Except.error e →
      Ussooauth.Handle c = Ussooauth.LoginOutcome.failure
        ("cannot get user details for \"" ++ id ++ "\": " ++ e)) ∧
    (∀ id u,
      (Ussooauth.verifyOAuthSignature c.requestURL c.request c.resp).2 =
        Except.ok id →
      c.findUserByExternalId id = Except.ok u →
      Ussooauth.Handle c = Ussooauth.LoginOutcome.success u) := by
  rcases hv : (Ussooauth.verifyOAuthSignature c.requestURL c.request c.resp).2
    with e | id
  · have h : Ussooauth.Handle c = Ussooauth.LoginOutcome.failure e := by
      simp [Ussooauth.Handle, hv]
    refine ⟨Or.inr ⟨e, h⟩, ?_, ?_, ?_, ?_⟩
    · rintro u e' ⟨hs, _⟩
      rw [h] at hs
      cases hs
    · intro e' he'
      injection he' with he''
      subst he''
      exact h
    · intro id e' hid _
      simp at hid
    · intro id u hid _
      simp at hid
  · rcases hf : c.findUserByExternalId id with e | u
    · have h : Ussooauth.Handle c = Ussooauth.LoginOutcome.failure
          ("cannot get user details for \"" ++ id ++ "\": " ++ e) := by
        simp [Ussooauth.Handle, hv, hf]
      refine ⟨Or.inr ⟨_, h⟩, ?_, ?_, ?_, ?_⟩
      · rintro u e' ⟨hs, _⟩
        rw [h] at hs
        cases hs
      · intro e' he'
        simp at he'
      · intro id' e' hid' he'
        injection hid' with hid''
        subst hid''
        rw [hf] at he'
        injection he' with he''
        subst he''
        exact h
      · intro id' u hid' hu
        injection hid' with hid''
        subst hid''
        rw [hf] at hu
        simp at hu
    · have h : Ussooauth.Handle c = Ussooauth.LoginOutcome.success u := by
        simp [Ussooauth.Handle, Ussooauth.LoginUser, hv, hf]
      refine ⟨Or.inl ⟨u, h⟩, ?_, ?_, ?_, ?_⟩
      · rintro u' e' ⟨_, hfail⟩
        rw [h] at hfail
        cases hfail
      · intro e' he'
        simp at he'
      · intro id' e' hid' he'
        injection hid' with hid''
        subst hid''
        rw [hf] at he'
        simp at he'
      · intro id' u' hid' hu'
        injection hid' with hid''
        subst hid''
        rw [hf] at hu'
        injection hu' with hu''
        subst hu''
        exact h

theorem claim_C3_handle_one_outcome_witness :
    Ussooauth.Handle Ussooauth.ctxOne =
      Ussooauth.LoginOutcome.success ⟨"bob"⟩ :=
  (claim_C3_handle_one_outcome Ussooauth.ctxOne).2.2.2.2
    "https://login.ubuntu.com/+id/u123" ⟨"bob"⟩ (by decide) (by decide)

/-- C5: on a run whose request URL parsed (when it does not, Go fails with
the parse error before the POST, so no validator response exists),
`verifyOAuthSignature` returns an error on a transport failure, on an
unparseable `Content-Type`, on a parsed media type other than
`application/json` (in both cases regardless of the body, so before the
body is parsed), on a body that fails to decode, on a non-empty `error`
field, and on `is_valid = false`; whenever it returns an error, for any
reason, the success sink is never reached (ussooauth.go lines 106-131). -/
theorem claim_C5_verify_failures :
    (∀ (u : Ussooauth.GoURL) req e,
      (Ussooauth.verifyOAuthSignature (Except.ok u) req (Except.error e)).2 =
        Except.error e) ∧
    (∀ (u : Ussooauth.GoURL) (req : Ussooauth.HttpRequest)
        (r : Ussooauth.HttpResponse) e,
      Ussooauth.parseMediaType r.contentType = Except.error e →
      ∀ b, (Ussooauth.verifyOAuthSignature (Except.ok u) req
          (Except.ok { r with body := b })).2 =
        Except.error ("bad content type \"" ++ r.contentType ++ "\"")) ∧
    (∀ (u : Ussooauth.GoURL) (req : Ussooauth.HttpRequest)
        (r : Ussooauth.HttpResponse) t,
      Ussooauth.parseMediaType r.contentType = Except.ok t →
      t ≠ "application/json" →
      ∀ b, (Ussooauth.verifyOAuthSignature (Except.ok u) req
          (Except.ok { r with body := b })).2 =
        Except.error ("unexpected response type \"" ++ t ++ "\"")) ∧
    (∀ (u : Ussooauth.GoURL) (req : Ussooauth.HttpRequest)
        (r : Ussooauth.HttpResponse) e,
      Ussooauth.parseMediaType r.contentType = Except.ok "application/json" →
      r.body = Except.error e →
      (Ussooauth.verifyOAuthSignature (Except.ok u) req (Except.ok r)).2 =
        Except.error e) ∧
    (∀ (u : Ussooauth.GoURL) (req : Ussooauth.HttpRequest)
        (r : Ussooauth.HttpResponse) (v : Ussooauth.Validated),
      Ussooauth.parseMediaType r.contentType = Except.ok "application/json" →
      r.body = Except.ok v → v.error ≠ "" →
      (Ussooauth.verifyOAuthSignature (Except.ok u) req (Except.ok r)).2 =
        Except.error ("cannot validate OAuth credentials: " ++ v.error)) ∧
    (∀ (u : Ussooauth.GoURL) (req : Ussooauth.HttpRequest)
        (r : Ussooauth.HttpResponse) (v : Ussooauth.Validated),
      Ussooauth.parseMediaType r.contentType = Except.ok "application/json" →
      r.body = Except.ok v → v.error = "" → v.is_valid = false →
      (Ussooauth.verifyOAuthSignature (Except.ok u) req (Except.ok r)).2 =
        Except.error "invalid OAuth credentials") ∧
    (∀ (c : Ussooauth.IdpContext) e,
      (Ussooauth.verifyOAuthSignature c.requestURL c.request c.resp).2 =
        Except.error e →
      ∀ u, Ussooauth.Handle c ≠ Ussooauth.LoginOutcome.success u) := by
  refine ⟨?_, ?_, ?_, ?_, ?_, ?_, ?_⟩
  · intro u req e
    rfl
  · intro u req r e h b
    simp [Ussooauth.verifyOAuthSignature, h]
  · intro u req r t h hne b
    simp [Ussooauth.verifyOAuthSignature, h, hne]
  · intro u req r e h hb
    simp [Ussooauth.verifyOAuthSignature, h, hb]
  · intro u req r v h hb hv
    simp [Ussooauth.verifyOAuthSignature, h, hb, hv]
  · intro u req r v h hb he hval
    simp [Ussooauth.verifyOAuthSignature, h, hb, he, hval]
  · intro c e h u
    simp [Ussooauth.Handle, h]

theorem claim_C5_verify_failures_witness :
    (Ussooauth.verifyOAuthSignature (Except.ok Ussooauth.urlOAuth)
        Ussooauth.reqPlain
        (Except.ok { contentType := "text/plain",
                     body := Except.error "junk" })).2 =
      Except.error ("unexpected response type \"text/plain\"") :=
  claim_C5_verify_failures.2.2.1 Ussooauth.urlOAuth Ussooauth.reqPlain
    { contentType := "text/plain", body := Except.ok ⟨true, ""⟩ }
    "text/plain" (by decide) (by decide) (Except.error "junk")

/-- C6: whenever `verifyOAuthSignature` succeeds, the returned external
identity is `ussoURL ++ "/+id/" ++ k` with `k` the leftmost
`oauth_consumer_key="..."` capture of the Authorization header; and on a
parsed request URL, a valid validator response and a header whose leftmost
capture is `k`, it does succeed with exactly that identity (ussooauth.go
lines 132-136). -/
theorem claim_C6_external_identity :
    (∀ pu (req : Ussooauth.HttpRequest) resp id,
      (Ussooauth.verifyOAuthSignature pu req resp).2 = Except.ok id →
      ∃ k, Ussooauth.findConsumerKey req.authorization = some k ∧
        id = Ussooauth.ussoURL ++ "/+id/" ++ k) ∧
    (∀ (u : Ussooauth.GoURL) (req : Ussooauth.HttpRequest)
        (r : Ussooauth.HttpResponse) k,
      Ussooauth.parseMediaType r.contentType = Except.ok "application/json" →
      r.body = Except.ok { is_valid := true, error := "" } →
      Ussooauth.findConsumerKey req.authorization = some k →
      (Ussooauth.verifyOAuthSignature (Except.ok u) req (Except.ok r)).2 =
        Except.ok (Ussooauth.ussoURL ++ "/+id/" ++ k)) := by
  constructor
  · intro pu req resp id h
    match pu with
    | .error e => simp [Ussooauth.verifyOAuthSignature] at h
    | .ok u =>
      match resp with
      | .error e => simp [Ussooauth.verifyOAuthSignature] at h
      | .ok r =>
        simp only [Ussooauth.verifyOAuthSignature] at h
        rcases hm : Ussooauth.parseMediaType r.contentType with e | t
        · rw [hm] at h
          simp at h
        · rw [hm] at h
          by_cases ht : t = "application/json"
          · subst ht
            simp only [ne_eq, not_true_eq_false, if_neg, ite_false,
              if_false] at h
            rcases hb : r.body with e | val
            · rw [hb] at h
              simp at h
            · rw [hb] at h
              by_cases he : val.error = ""
              · simp only [he, ne_eq, not_true_eq_false, ite_false] at h
                by_cases hv : val.is_valid
                · simp only [hv, Bool.not_true, Bool.false_eq_true,
                    ite_false] at h
                  rcases hk : Ussooauth.findConsumerKey req.authorization
                    with _ | k
                  · rw [hk] at h
                    simp at h
                  · rw [hk] at h
                    injection h with h'
                    exact ⟨k, rfl, h'.symm⟩
                · simp [hv] at h
              · simp [he] at h
          · simp [ht] at h
  · intro u req r k hct hb hk
    simp [Ussooauth.verifyOAuthSignature, hct, hb, hk]

theorem claim_C6_external_identity_witness :
    (Ussooauth.verifyOAuthSignature (Except.ok Ussooauth.urlOAuthWait)
        Ussooauth.reqOne (Except.ok Ussooauth.respValid)).2 =
      Except.ok "https://login.ubuntu.com/+id/u123" :=
  claim_C6_external_identity.2 Ussooauth.urlOAuthWait Ussooauth.reqOne
    Ussooauth.respValid "u123" (by decide) (by decide) (by decide)

/-- C7 counterexample: not every verification makes a POST.  For the
request URL `https://e.com/%zz`, whose `%zz` is an invalid percent-escape,
`url.Parse` fails (ussooauth.go lines 86-89), so `verifyOAuthSignature`
makes zero POSTs and returns the wrapped parse error, refuting "exactly
one POST is made per verification". -/
theorem claim_C7_counterexample :
    Ussooauth.verifyOAuthSignature (Except.error Ussooauth.parseErrZZ)
        Ussooauth.reqPlain (Except.ok Ussooauth.respValid) =
      ([], Except.error
        ("cannot parse request URL: " ++ Ussooauth.parseErrZZ)) :=
  rfl

/-- C7 amended: when `url.Parse` fails, no POST is made and verification
fails with `cannot parse request URL`; when the request URL parses,
exactly one payload is POSTed, a JSON object with exactly the keys
`http_url`, `http_method`, `authorization` and `query_string` in that
order, whose values are the parsed URL re-serialised with its query
cleared, the request method, the `Authorization` header, and the
form-encoded query/body parameters; and for a parsed URL without forced
query and fragment, clearing the query yields the serialisation's
pre-query prefix — the URL with its query string stripped (ussooauth.go
lines 84-106). -/
theorem claim_C7_payload :
    (∀ e (req : Ussooauth.HttpRequest) resp,
      Ussooauth.verifyOAuthSignature (Except.error e) req resp =
        ([], Except.error ("cannot parse request URL: " ++ e))) ∧
    (∀ (u : Ussooauth.GoURL) (req : Ussooauth.HttpRequest) resp,
      (Ussooauth.verifyOAuthSignature (Except.ok u) req resp).1 =
        [[("http_url", Ussooauth.urlString { u with rawQuery := "" }),
          ("http_method", req.method),
          ("authorization", req.authorization),
          ("query_string", Ussooauth.valuesEncode req.form)]] ∧
      (Ussooauth.verifyOAuthSignature (Except.ok u) req resp).1.length = 1) ∧
    (∀ u : Ussooauth.GoURL, u.forceQuery = false → u.fragment = "" →
      Ussooauth.urlString { u with rawQuery := "" } = u.base ∧
      Ussooauth.urlString u =
        u.base ++ (if u.rawQuery = "" then "" else "?" ++ u.rawQuery)) := by
  refine ⟨fun e req resp => rfl, fun u req resp => ⟨rfl, rfl⟩, ?_⟩
  intro u hfq hfr
  constructor
  · simp [Ussooauth.urlString, hfq, hfr, String.append_empty]
  · by_cases hq : u.rawQuery = "" <;>
      simp [Ussooauth.urlString, hfq, hfr, hq, String.append_empty]

theorem claim_C7_payload_witness :
    Ussooauth.urlString
        { Ussooauth.urlOAuthWait with rawQuery := "" } =
      "https://e.com/oauth" :=
  (claim_C7_payload.2.2 Ussooauth.urlOAuthWait rfl rfl).1

/-- C4 counterexample: an Authorization header with two
`oauth_consumer_key` occurrences does not make verification fail: with a
parsed request URL and a valid validator response, `verifyOAuthSignature`
succeeds and uses the first occurrence's key. -/
theorem claim_C4_counterexample :
    Ussooauth.countConsumerKeyMatches Ussooauth.reqTwo.authorization = 2 ∧
    (Ussooauth.verifyOAuthSignature (Except.ok Ussooauth.urlOAuth)
        Ussooauth.reqTwo (Except.ok Ussooauth.respValid)).2 =
      Except.ok "https://login.ubuntu.com/+id/a" := by
  constructor
  · decide
  · decide

/-- C4 amended: verification extracts the consumer key from the
Authorization header by the fixed pattern `oauth_consumer_key="..."`.
With zero matches it can never succeed, and on a parsed request URL with a
valid validator response it fails with the malformed-credential cause `no
customer key in authorization`; when one or more matches are present it
succeeds using the leftmost match's key (multiple occurrences are not
rejected, since `FindStringSubmatch` returns only the leftmost match,
whose slice always has length 2). -/
theorem claim_C4_amended_consumer_key :
    (∀ pu (req : Ussooauth.HttpRequest) resp,
      Ussooauth.findConsumerKey req.authorization = none →
      ∀ id, (Ussooauth.verifyOAuthSignature pu req resp).2 ≠ Except.ok id) ∧
    (∀ (u : Ussooauth.GoURL) (req : Ussooauth.HttpRequest)
        (r : Ussooauth.HttpResponse),
      Ussooauth.parseMediaType r.contentType = Except.ok "application/json" →
      r.body = Except.ok { is_valid := true, error := "" } →
      Ussooauth.findConsumerKey req.authorization = none →
      (Ussooauth.verifyOAuthSignature (Except.ok u) req (Except.ok r)).2 =
        Except.error "no customer key in authorization") ∧
    (∀ (u : Ussooauth.GoURL) (req : Ussooauth.HttpRequest)
        (r : Ussooauth.HttpResponse) k,
      Ussooauth.parseMediaType r.contentType = Except.ok "application/json" →
      r.body = Except.ok { is_valid := true, error := "" } →
      Ussooauth.findConsumerKey req.authorization = some k →
      (Ussooauth.verifyOAuthSignature (Except.ok u) req (Except.ok r)).2 =
        Except.ok (Ussooauth.ussoURL ++ "/+id/" ++ k)) ∧
    (∀ s, Ussooauth.findConsumerKey s = none ↔
      Ussooauth.countConsumerKeyMatches s = 0) := by
  refine ⟨?_, ?_, ?_, ?_⟩
  · intro pu req resp hnone id h
    match pu with
    | .error e => simp [Ussooauth.verifyOAuthSignature] at h
    | .ok u =>
      match resp with
      | .error e => simp [Ussooauth.verifyOAuthSignature] at h
      | .ok r =>
        simp only [Ussooauth.verifyOAuthSignature] at h
        rcases hm : Ussooauth.parseMediaType r.contentType with e | t
        · rw [hm] at h
          simp at h
        · rw [hm] at h
          by_cases ht : t = "application/json"
          · subst ht
            simp only [ne_eq, not_true_eq_false, if_neg, ite_false,
              if_false] at h
            rcases hb : r.body with e | val
            · rw [hb] at h
              simp at h
            · rw [hb] at h
              by_cases he : val.error = ""
              · simp only [he, ne_eq, not_true_eq_false, ite_false] at h
                by_cases hv : val.is_valid
                · simp only [hv, Bool.not_true, Bool.false_eq_true,
                    ite_false, hnone] at h
                  simp at h
                · simp [hv] at h
              · simp [he] at h
          · simp [ht] at h
  · intro u req r hct hb hk
    simp [Ussooauth.verifyOAuthSignature, hct, hb, hk]
  · intro u req r k hct hb hk
    simp [Ussooauth.verifyOAuthSignature, hct, hb, hk]
  · intro s
    rw [Ussooauth.findConsumerKey, Ussooauth.countConsumerKeyMatches,
      Option.map_eq_none']
    exact Ussooauth.findKeyAux_eq_none_iff s.data

theorem claim_C4_amended_consumer_key_witness :
    (Ussooauth.verifyOAuthSignature (Except.ok Ussooauth.urlOAuth)
        Ussooauth.reqPlain (Except.ok Ussooauth.respValid)).2 =
      Except.error "no customer key in authorization" :=
  claim_C4_amended_consumer_key.2.1 Ussooauth.urlOAuth Ussooauth.reqPlain
    Ussooauth.respValid (by decide) (by decide) (by decide)

end Candid
